import Mathlib

/-!
# Verification of the tiny-backspace patch / validation / event-stream engine

Shallow embedding of `src/agent.py` and `src/main.py` of the
`arjun-ds/tiny-backspace` repository.

File contents are modelled as `List Char` (Python `str`), the file system as
an association list from absolute path (`String`) to content, and the
SSE progress stream of `CodingAgent.process_repository` as a `List Event`
computed from an environment record that captures the outcomes of the
external collaborators (git, the planner, the GitHub API, the wall clock
driving heartbeats).  Observability integrations (`langsmith`, `ddtrace`)
are disabled by the deployment configuration in `src/main.py` (environment
sets `LANGSMITH_ENABLED`/`DD_TRACE_ENABLED` to `"false"`), so the
corresponding branches of the Python code are no-ops and are not modelled.
-/

namespace TB

/-! ## Python string primitives used by `_apply_single_edit` and the
    event-preview cleanup in `process_repository`. -/

/-- `startsWith s pat` is true when `pat` is a literal prefix of `s`
(the head test performed at each scan position by CPython `str.replace`). -/
def startsWith : List Char → List Char → Bool
  | _, [] => true
  | [], _ :: _ => false
  | a :: as, b :: bs => a == b && startsWith as bs

/-- Index of the first literal occurrence of `old` in `s`, as scanned
left-to-right by CPython `str.find` / `str.replace`. -/
def firstOcc (old : List Char) : List Char → Option Nat
  | [] => if startsWith [] old then some 0 else none
  | c :: cs =>
      if startsWith (c :: cs) old then some 0
      else (firstOcc old cs).map (· + 1)

/-- `old` occurs somewhere in `s`. -/
def occursIn (old s : List Char) : Bool := (firstOcc old s).isSome

/-- One left-to-right scan replacing the first occurrence of the non-empty
pattern `old` (the `count = 1` branch of CPython `str.replace`); if `old`
does not occur, the string is returned unchanged. -/
def replace1ne (old new : List Char) : List Char → List Char
  | [] => []
  | c :: cs =>
      if startsWith (c :: cs) old then new ++ (c :: cs).drop old.length
      else c :: replace1ne old new cs

/-- CPython `s.replace(old, new, 1)` as used on line 613 of `src/agent.py`:
with an empty pattern the single replacement is inserted at position 0
(`"abc".replace("", "X", 1) == "Xabc"`); otherwise the first literal
occurrence of `old` is replaced. -/
def str_replace1 (s old new : List Char) : List Char :=
  if old.isEmpty then new ++ s else replace1ne old new s

/-- Scan replacing every non-overlapping occurrence of the non-empty pattern
`o :: os`, continuing after each inserted replacement (unlimited-count
CPython `str.replace` with a non-empty pattern).  The `fuel` argument only
drives structural recursion; it is always instantiated with the length of
the scanned string, which bounds the number of steps. -/
def replace_all_go (o : Char) (os new : List Char) : Nat → List Char → List Char
  | 0, s => s
  | _ + 1, [] => []
  | fuel + 1, c :: cs =>
      if startsWith (c :: cs) (o :: os) then
        new ++ replace_all_go o os new fuel (cs.drop os.length)
      else c :: replace_all_go o os new fuel cs

/-- CPython `s.replace(old, new)` (unlimited count).  With the empty pattern
the replacement is inserted before every character and at the end
(`"ab".replace("", "-") == "-a-b-"`); that branch is unreachable in
`src/agent.py` (patterns there are `"\n"`, `"\t"` and four spaces) but is
kept for fidelity. -/
def py_replace_all (s old new : List Char) : List Char :=
  match old with
  | [] => new ++ (s.map (fun c => c :: new)).flatten
  | o :: os => replace_all_go o os new s.length s

/-- The characters removed by CPython `str.strip()` with no argument
(ASCII whitespace). -/
def isPySpace (c : Char) : Bool :=
  c == ' ' || c == '\t' || c == '\n' || c == '\r' ||
    c == Char.ofNat 11 || c == Char.ofNat 12

/-- CPython `s.strip()`: drop leading and trailing whitespace. -/
def py_strip (s : List Char) : List Char :=
  ((s.dropWhile isPySpace).reverse.dropWhile isPySpace).reverse

/-- The preview cleanup applied to `old_str` / `new_str` before a
`Tool: Edit` event is emitted (lines 218-219 of `src/agent.py`):
`edit["old_str"].strip()[:100].replace('\n', ' ').replace('\t', ' ').replace('    ', ' ')`. -/
def clean_preview (s : List Char) : String :=
  ⟨py_replace_all
    (py_replace_all
      (py_replace_all ((py_strip s).take 100) ['\n'] [' '])
      ['\t'] [' '])
    [' ', ' ', ' ', ' '] [' ']⟩

/-! ## The Patch Applier: `_apply_single_edit` (lines 605-618 of
    `src/agent.py`) and the plan loop of `process_repository`
    (lines 216-227). -/

/-- One edit operation as produced by the planner: a target path relative to
the workspace root and a literal find/replace pair. -/
structure EditOp where
  file : String
  old_str : List Char
  new_str : List Char
deriving DecidableEq

/-- The file system visible to the agent: absolute path to content.  Keys are
the literal (unresolved) path strings handed to `open`. -/
abbrev FS := List (String × List Char)

/-- First entry whose key is `key` (a path names at most one file). -/
def fsFind : FS → String → Option (List Char)
  | [], _ => none
  | (k, v) :: rest, key => if k = key then some v else fsFind rest key

/-- Overwrite the content stored at `key` (CPython `open(path, 'w')` on an
existing file). -/
def fsUpdate : FS → String → List Char → FS
  | [], _, _ => []
  | (k, v) :: rest, key, nv =>
    if k = key then (k, nv) :: rest else (k, v) :: fsUpdate rest key nv

/-- `os.path.join(a, b)` for the shapes occurring in `src/agent.py`
(posixpath: an absolute `b` replaces `a`, otherwise one separator is
inserted unless `a` already ends in one). -/
def os_path_join (a b : String) : String :=
  if startsWith b.data ['/'] then b
  else if startsWith a.data.reverse ['/'] then a ++ b
  else a ++ "/" ++ b

/-- The body of the `try` block of `_apply_single_edit`: open the target for
reading (`Except.error` models the raised `OSError` when the file is
missing), apply `content.replace(old_str, new_str, 1)` and write the result
back.  The second component lists the paths written. -/
def apply_single_edit_raw (fs : FS) (repo_path : String) (e : EditOp) :
    Except String (FS × List String) :=
  let file_path := os_path_join repo_path e.file
  match fsFind fs file_path with
  | none => Except.error ("No such file or directory: " ++ file_path)
  | some content =>
      Except.ok
        (fsUpdate fs file_path (str_replace1 content e.old_str e.new_str),
         [file_path])

/-- `_apply_single_edit` itself: the bare `except` catches every exception
and only logs it, so the caller observes a total function that leaves the
file system untouched (and writes nothing) whenever the `try` body raised. -/
def apply_single_edit (fs : FS) (repo_path : String) (e : EditOp) :
    FS × List String :=
  match apply_single_edit_raw fs repo_path e with
  | Except.ok r => r
  | Except.error _ => (fs, [])

/-- The plan loop of `process_repository` (line 216): every edit of the plan
is applied in order against the file system left by its predecessors; the
write log is concatenated. -/
def apply_plan (fs : FS) (repo_path : String) : List EditOp → FS × List String
  | [] => (fs, [])
  | e :: rest =>
      let r := apply_single_edit fs repo_path e
      let r2 := apply_plan r.1 repo_path rest
      (r2.1, r.2 ++ r2.2)

/-! ## Path resolution (used only to judge whether a path escapes the
    workspace root). -/

/-- Split a path into components at `/`. -/
def splitSlash : List Char → List (List Char)
  | [] => [[]]
  | c :: cs =>
      let rest := splitSlash cs
      if c == '/' then [] :: rest
      else
        match rest with
        | [] => [[c]]
        | r :: rs => (c :: r) :: rs

/-- Modelled from the spec: POSIX resolution of `.`, `..` and empty
components, used to decide whether a joined path stays under the workspace
root.  `src/agent.py` performs no such normalisation or check of its own;
this definition only interprets the paths the code hands to the operating
system. -/
def resolveComps (comps : List (List Char)) : List (List Char) :=
  comps.foldl
    (fun acc c =>
      if c = [] ∨ c = ['.'] then acc
      else if c = ['.', '.'] then acc.dropLast
      else acc ++ [c])
    []

/-- `a` is a literal prefix of the component list `b`. -/
def compsLe : List (List Char) → List (List Char) → Bool
  | [], _ => true
  | _ :: _, [] => false
  | a :: as, b :: bs => a = b && compsLe as bs

/-- The resolved form of `p` stays at or below the resolved form of
`root`. -/
def under_root (root p : String) : Bool :=
  compsLe (resolveComps (splitSlash root.data)) (resolveComps (splitSlash p.data))

/-! ## The Validator: `_run_code_validation` (lines 969-1032 of
    `src/agent.py`).

    Per candidate file the in-process `compile()` check
    (`_validate_python_syntax`) and the `python -m py_compile` subprocess
    are external observations; their outcomes are inputs of the model. -/

/-- Outcome of the `subprocess.run(["python", "-m", "py_compile", ...])`
call for one file: normal exit (with return code and stripped stderr),
`subprocess.TimeoutExpired`, or any other raised exception. -/
inductive CompileOutcome where
  | exited (returncode : Int) (stderr : String)
  | timedOut
  | raised (msg : String)
deriving DecidableEq

/-- One candidate `.py` file of the workspace walk (the walk already
excludes `.git` and `__pycache__` subtrees), together with the outcomes of
its two checks. -/
structure PyFileCheck where
  relPath : String
  syntaxOk : Bool
  compileRes : CompileOutcome
deriving DecidableEq

/-- The dict built by `_run_code_validation`
(`success` / `syntax_errors` / `compilation_errors`). -/
structure ValidationResults where
  success : Bool
  syntax_errors : List String
  compilation_errors : List (String × String)
deriving DecidableEq

/-- One iteration of the validation loop: a failed syntax check records the
path and `continue`s (skipping the compile step); otherwise a non-zero exit,
a timeout or a raised exception each append a compilation error; every
recorded error also clears `success`. -/
def validate_step (acc : ValidationResults) (f : PyFileCheck) : ValidationResults :=
  if !f.syntaxOk then
    { acc with
        syntax_errors := acc.syntax_errors ++ [f.relPath]
        success := false }
  else
    match f.compileRes with
    | CompileOutcome.exited rc err =>
        if rc ≠ 0 then
          { acc with
              compilation_errors := acc.compilation_errors ++ [(f.relPath, err)]
              success := false }
        else acc
    | CompileOutcome.timedOut =>
        { acc with
            compilation_errors :=
              acc.compilation_errors ++ [(f.relPath, "Compilation timeout (10s exceeded)")]
            success := false }
    | CompileOutcome.raised m =>
        { acc with
            compilation_errors :=
              acc.compilation_errors ++ [(f.relPath, "Compilation check failed: " ++ m)]
            success := false }

/-- `_run_code_validation`: start from
`{"success": True, "syntax_errors": [], "compilation_errors": []}` and fold
the loop body over every candidate file of the workspace. -/
def run_code_validation (files : List PyFileCheck) : ValidationResults :=
  files.foldl validate_step
    { success := true, syntax_errors := [], compilation_errors := [] }

/-! ## The Retry Coordinator.

    `_cycle_errors_with_claude` (lines 1034-1092 of `src/agent.py`) guards
    `if attempt > 3: raise Exception(...)` before building the fix prompt or
    contacting the planner; that guard is embedded below.  The loop driving
    validation and error cycling is not present under `src/` (the functions
    are declared but never called from `process_repository`), so the
    coordinator itself is modelled from the spec (§4.3). -/

/-- `max_attempts` as fixed by the `attempt > 3` guard of
`_cycle_errors_with_claude`. -/
def max_attempts : Nat := 3

/-- The entry guard of `_cycle_errors_with_claude`: an attempt number above
3 raises before any corrective plan is requested; otherwise a planner
request is issued (`Except.ok`). -/
def cycle_errors_guard (attempt : Nat) : Except String Unit :=
  if attempt > 3 then Except.error "Maximum error cycling attempts reached"
  else Except.ok ()

/-- States of the Retry Coordinator (§4.3 of the spec). -/
inductive RCStatus where
  | planning | applying | validating | fixing | success | failed
deriving DecidableEq

/-- Outcome of one coordinator run: terminal state, number of `Validating`
transitions taken, and number of planning calls issued (initial plan plus
corrective plans). -/
structure RCResult where
  final : RCStatus
  validations : Nat
  plannerCalls : Nat
deriving DecidableEq

/-- Modelled from the spec: the Retry Coordinator loop of §4.3, which is
absent from `src/` (only its error-cycling step `_cycle_errors_with_claude`
and the validator exist there).  `attempt` starts at 1 and increments on
entry to `Fixing`; `Validating → Success` on a passing validation,
`Validating → Fixing` on failure while `attempt < max_attempts` (issuing a
corrective planning call through the embedded guard of
`_cycle_errors_with_claude`), `Validating → Failed` on failure at
`attempt == max_attempts`.  `validator n` is the outcome of the n-th
validation pass; `fuel` only drives the recursion and is instantiated with
`max_attempts`. -/
def rc_loop (validator : Nat → Bool) :
    Nat → Nat → Nat → Nat → RCResult
  | 0, _, v, p => ⟨RCStatus.failed, v, p⟩
  | fuel + 1, attempt, v, p =>
      if validator attempt then ⟨RCStatus.success, v + 1, p⟩
      else if attempt < max_attempts then
        match cycle_errors_guard (attempt + 1) with
        | Except.ok _ => rc_loop validator fuel (attempt + 1) (v + 1) (p + 1)
        | Except.error _ => ⟨RCStatus.failed, v + 1, p⟩
      else ⟨RCStatus.failed, v + 1, p⟩

/-- A full coordinator run: one initial planning call, first validation at
`attempt = 1`. -/
def rc_run (validator : Nat → Bool) : RCResult :=
  rc_loop validator max_attempts 1 0 1

/-! ## The Event Emitter: the progress-event stream of
    `process_repository` (lines 70-304 of `src/agent.py`), `run_agent`
    (lines 1177-1208) and the `/code` handler `create_code_changes`
    (lines 41-71 of `src/main.py`).

    The generator is modelled as a pure function from an environment record
    (outcomes of the external collaborators and of the wall clock driving
    `maybe_heartbeat`) to the list of emitted events, in emission order. -/

/-- The typed progress events (the JSON objects yielded by the agent). -/
inductive Event where
  | aiMessage (message : String)
  | toolRead (filepath : String)
  | toolEdit (filepath old_preview new_preview : String)
  | toolBash (command output : String)
  | heartbeat (message : String)
  | error (message : String)
  | complete (message : String) (pr_url : Option String)
deriving DecidableEq

/-- `error` and `complete` are the terminal event types. -/
def isTerminal : Event → Bool
  | Event.error _ => true
  | Event.complete _ _ => true
  | _ => false

/-- Just the `error` event type. -/
def isErrorEvent : Event → Bool
  | Event.error _ => true
  | _ => false

/-- A single-quote character, used inside command / output strings. -/
def sq : String := String.singleton (Char.ofNat 39)

/-- Outcomes of everything external to the generator: the wall clock
(`hb n` decides whether the n-th `maybe_heartbeat` checkpoint fires), the
configured secrets, the clone, the workspace walk, the planner, git and the
GitHub API.  `cloneErr` covers any exception raised between entering the
temporary directory and the inner `try` (clone, git config); `checkoutErr`,
`addErr` and `commitErr` are exceptions raised by the corresponding
`repo.git` calls (a push failure is caught inside the git generator and
only reported in the event output). -/
structure AgentEnv where
  hb : Nat → Bool
  githubToken : String
  anthropicKey : String
  cloneErr : Option String
  pyFiles : List String
  claudeEdits : List EditOp
  fallbackEdits : List EditOp
  timestamp : Nat
  checkoutErr : Option String
  addErr : Option String
  commitErr : Option String
  pushErr : Option String
  logOneline : String
  prResult : Except String String

/-- One `maybe_heartbeat` checkpoint (lines 111-116): a heartbeat event is
emitted when more than the heartbeat interval elapsed since the last
emission, which the environment reports as `hb i` for the i-th checkpoint. -/
def hb_chunk (env : AgentEnv) (i : Nat) : List Event :=
  if env.hb i then [Event.heartbeat "Still working..."] else []

/-- The first workspace walk (lines 150-161): one `Tool: Read` per `.py`
file, each followed by a heartbeat checkpoint. -/
def walk_read_events (env : AgentEnv) : List String → Nat → List Event
  | [], _ => []
  | f :: fs, i =>
      Event.toolRead f :: (hb_chunk env i ++ walk_read_events env fs (i + 1))

/-- The edit loop (lines 216-227): one `Tool: Edit` event per edit of the
plan, carrying the cleaned previews. -/
def edit_events (edits : List EditOp) : List Event :=
  edits.map fun e =>
    Event.toolEdit e.file (clean_preview e.old_str) (clean_preview e.new_str)

/-- Result of iterating `_create_git_branch_and_commit_and_collect_events`
(lines 1146-1163): the events yielded (each followed by a heartbeat
checkpoint in the caller's loop, line 236-239), the next checkpoint index,
and the message of an exception that escaped the generator, if any. -/
structure GitOut where
  events : List Event
  nextIdx : Nat
  raised : Option String

/-- `_create_git_branch_and_commit_and_collect_events`: checkout, add and
commit raise on failure (aborting the generator); the push is wrapped in
its own `try` and only changes the reported output. -/
def git_events (env : AgentEnv) (branch commit_msg : String) (i0 : Nat) : GitOut :=
  match env.checkoutErr with
  | some m => ⟨[], i0, some m⟩
  | none =>
    let e1 := [Event.toolBash ("git checkout -b " ++ branch)
                 ("Switched to a new branch " ++ sq ++ branch ++ sq)] ++ hb_chunk env i0
    match env.addErr with
    | some m => ⟨e1, i0 + 1, some m⟩
    | none =>
      let e2 := e1 ++ [Event.toolBash "git add ." ""] ++ hb_chunk env (i0 + 1)
      match env.commitErr with
      | some m => ⟨e2, i0 + 2, some m⟩
      | none =>
        let e3 := e2 ++ [Event.toolBash ("git commit -m " ++ sq ++ commit_msg ++ sq)
                           env.logOneline] ++ hb_chunk env (i0 + 2)
        let pushOut :=
          match env.pushErr with
          | some m => "Push failed: " ++ m
          | none => "Pushed branch " ++ sq ++ branch ++ sq ++ " to remote"
        ⟨e3 ++ [Event.toolBash ("git push origin " ++ branch) pushOut]
            ++ hb_chunk env (i0 + 3),
         i0 + 4, none⟩

/-- The branch name of line 235: `claude-improvements-{int(time.time())}`. -/
def branch_name (env : AgentEnv) : String :=
  "claude-improvements-" ++ toString env.timestamp

/-- The commit message of line 1155: `Automated changes: {prompt}`. -/
def commit_message (prompt : String) : String := "Automated changes: " ++ prompt

/-- The events emitted between the start of the apply loop (line 215) and
entering the git generator: the `Applying N changes...` narration, one
`Tool: Edit` per edit, and the `Creating git commit...` narration with its
heartbeat checkpoint. -/
def apply_loop_events (env : AgentEnv) (pre : List Event) (edits : List EditOp)
    (i : Nat) : List Event :=
  pre
    ++ [Event.aiMessage ("Applying " ++ toString edits.length ++ " changes...")]
    ++ edit_events edits
    ++ [Event.aiMessage "Creating git commit..."] ++ hb_chunk env i

/-- The tail of the workflow once a non-empty plan `edits` is in hand
(lines 215-289): apply the edits, commit on a fresh branch, attempt the
pull request, and emit the terminal event; an exception raised inside the
inner `try` (here: from the git generator) is answered by the inner
`except` with a single `error` event.  `pre` is the already-emitted prefix
and `i` the next heartbeat checkpoint index. -/
def after_plan (prompt : String) (env : AgentEnv) (pre : List Event)
    (edits : List EditOp) (i : Nat) : List Event :=
  let g := git_events env (branch_name env) (commit_message prompt) (i + 1)
  match g.raised with
  | some m =>
      apply_loop_events env pre edits i ++ g.events
        ++ [Event.error ("Workflow failed: " ++ m)]
  | none =>
      let t6 := apply_loop_events env pre edits i ++ g.events
        ++ [Event.aiMessage "Creating pull request..."] ++ hb_chunk env g.nextIdx
      match env.prResult with
      | Except.ok url =>
          t6 ++ [Event.aiMessage ("Pull request created: " ++ url)]
            ++ [Event.complete "Changes completed successfully - PR created!" (some url)]
      | Except.error m =>
          t6 ++ [Event.aiMessage
                  ("Warning: Failed to create pull request: Failed to create pull request: "
                    ++ m)]
            ++ [Event.aiMessage ("Changes were pushed to branch: " ++ branch_name env)]
            ++ [Event.complete
                  ("Changes completed successfully - pushed to branch " ++ branch_name env)
                  none]

/-- The events emitted between a successful clone and the planner call:
narration, the two workspace walks, and the per-file `Tool: Read` events
(lines 139-184). -/
def analysis_events (repo_url : String) (env : AgentEnv) : List Event :=
  [Event.aiMessage ("Cloning " ++ repo_url ++ "...")] ++ hb_chunk env 0
    ++ hb_chunk env 1
    ++ [Event.aiMessage "Repository cloned successfully"] ++ hb_chunk env 2
    ++ [Event.aiMessage "Analyzing codebase structure..."] ++ hb_chunk env 3
    ++ walk_read_events env env.pyFiles 4
    ++ [Event.aiMessage ("Found " ++ toString env.pyFiles.length ++ " Python files")]
    ++ hb_chunk env (4 + env.pyFiles.length)
    ++ [Event.aiMessage "Starting AI analysis with Claude 3.5 Sonnet..."]
    ++ hb_chunk env (4 + env.pyFiles.length + 1)
    ++ [Event.aiMessage "Analyzing with Claude 3.5 Sonnet..."]
    ++ [Event.aiMessage ("Found files: " ++ String.intercalate ", " env.pyFiles)]
    ++ env.pyFiles.map Event.toolRead

/-- `CodingAgent.process_repository`: the full event stream of one request.
An exception raised before the inner `try` (clone / git config) reaches the
outer `except` and yields one `error` event; an empty planner result
(`if not changes.get('edits')`) falls back to `_create_fallback_edits`, and
when that is empty too the generator `return`s after a plain `AI Message`
(line 212) — with no terminal event. -/
def process_repository (repo_url prompt : String) (env : AgentEnv) : List Event :=
  match env.cloneErr with
  | some m =>
      [Event.aiMessage ("Cloning " ++ repo_url ++ "...")] ++ hb_chunk env 0
        ++ [Event.error ("Error processing repository: " ++ m)]
  | none =>
      match env.claudeEdits with
      | e :: es =>
          after_plan prompt env (analysis_events repo_url env) (e :: es)
            (4 + env.pyFiles.length + 2)
      | [] =>
          let t4 := analysis_events repo_url env
            ++ [Event.aiMessage
                  ("Claude didn" ++ sq
                    ++ "t provide changes, creating fallback implementation...")]
          match env.fallbackEdits with
          | [] => t4 ++ [Event.aiMessage "Unable to create fallback changes for this request."]
          | f :: fs => after_plan prompt env t4 (f :: fs) (4 + env.pyFiles.length + 2)

/-- `run_agent` (lines 1177-1208 of `src/agent.py`): refuse to start without
the configured secrets, then forward the agent's events (the SSE `data:`
framing is the transport encoding of the same sequence and is not
modelled). -/
def run_agent (repo_url prompt : String) (env : AgentEnv) : List Event :=
  if env.githubToken = "" then [Event.error "GitHub token not configured"]
  else if env.anthropicKey = "" then [Event.error "Anthropic API key not configured"]
  else process_repository repo_url prompt env

/-- The body of a `POST /code` request (`src/main.py`). -/
structure CodeRequest where
  repoUrl : String
  prompt : String

/-- The URL substituted by the handler (line 47 of `src/main.py`,
`# Hardcode the repo URL as requested`). -/
def hardcoded_repo_url : String := "https://github.com/arjun-ds/tiny-backspace"

/-- `create_code_changes`, the `POST /code` handler (lines 41-71 of
`src/main.py`): ignore `request.repoUrl`, emit the two introductory
messages and forward `run_agent` on the hardcoded repository. -/
def create_code_changes (request : CodeRequest) (env : AgentEnv) : List Event :=
  let repo_url := hardcoded_repo_url
  [Event.aiMessage ("Starting agent for repository: " ++ repo_url),
   Event.aiMessage ("Task: " ++ request.prompt)]
  ++ run_agent repo_url request.prompt env

/-- Number of terminal events in a stream. -/
def terminal_count (l : List Event) : Nat := (l.filter isTerminal).length

/-- Every event before the last one is non-terminal (hence: at most one
terminal event, and nothing is emitted after it). -/
def clean_terminals (l : List Event) : Bool :=
  l.dropLast.all fun e => !(isTerminal e)

/-! ## Lemmas about the string primitives. -/

theorem startsWith_iff : ∀ (s p : List Char), startsWith s p = true ↔ ∃ t, s = p ++ t
  | s, [] => by simp [startsWith]
  | [], _ :: _ => by simp [startsWith]
  | a :: as, b :: bs => by
    simp only [startsWith, Bool.and_eq_true, beq_iff_eq, List.cons_append,
      List.cons.injEq]
    rw [startsWith_iff as bs]
    constructor
    · rintro ⟨h1, t, h2⟩; exact ⟨t, h1, h2⟩
    · rintro ⟨t, h1, h2⟩; exact ⟨h1, t, h2⟩

theorem startsWith_length {s p : List Char} (h : startsWith s p = true) :
    p.length ≤ s.length := by
  obtain ⟨t, rfl⟩ := (startsWith_iff s p).mp h
  simp

theorem firstOcc_startsWith :
    ∀ (old s : List Char) (i : Nat), firstOcc old s = some i →
      startsWith (s.drop i) old = true
  | old, [], i, h => by
    simp only [firstOcc] at h
    split at h
    · rename_i hs
      cases h; simpa using hs
    · cases h
  | old, c :: cs, i, h => by
    simp only [firstOcc] at h
    split at h
    · rename_i hs
      cases h; simpa using hs
    · simp only [Option.map_eq_some'] at h
      obtain ⟨j, hj, rfl⟩ := h
      simpa using firstOcc_startsWith old cs j hj

theorem firstOcc_min :
    ∀ (old s : List Char) (i : Nat), firstOcc old s = some i →
      ∀ j, j < i → startsWith (s.drop j) old = false
  | old, [], i, h => by
    simp only [firstOcc] at h
    split at h
    · cases h; omega
    · cases h
  | old, c :: cs, i, h => by
    simp only [firstOcc] at h
    split at h
    · cases h; omega
    · rename_i hs
      simp only [Option.map_eq_some'] at h
      obtain ⟨j', hj', rfl⟩ := h
      intro j hj
      cases j with
      | zero => simpa using hs
      | succ k =>
        simpa using firstOcc_min old cs j' hj' k (by omega)

theorem firstOcc_bound {old s : List Char} {i : Nat} (hne : old ≠ [])
    (h : firstOcc old s = some i) : i + old.length ≤ s.length := by
  have h1 := startsWith_length (firstOcc_startsWith old s i h)
  rw [List.length_drop] at h1
  have h2 : 0 < old.length := List.length_pos.mpr hne
  omega

theorem firstOcc_decomp {old s : List Char} {i : Nat}
    (h : firstOcc old s = some i) :
    s = s.take i ++ old ++ s.drop (i + old.length) := by
  obtain ⟨t, ht⟩ := (startsWith_iff _ _).mp (firstOcc_startsWith old s i h)
  have htt : t = s.drop (i + old.length) := by
    have : (s.drop i).drop old.length = t := by
      rw [ht, List.drop_left]
    rw [List.drop_drop] at this
    rw [← this]
  calc s = s.take i ++ s.drop i := (List.take_append_drop i s).symm
    _ = s.take i ++ old ++ s.drop (i + old.length) := by
        rw [ht, htt, List.append_assoc]

theorem replace1ne_eq :
    ∀ (old new s : List Char) (i : Nat), old ≠ [] → firstOcc old s = some i →
      replace1ne old new s = s.take i ++ new ++ s.drop (i + old.length)
  | old, new, [], i, hne, h => by
    have hs := firstOcc_startsWith old [] i h
    obtain ⟨t, ht⟩ := (startsWith_iff _ _).mp hs
    exact absurd (List.append_eq_nil.mp (List.drop_nil ▸ ht).symm).1 hne
  | old, new, c :: cs, i, hne, h => by
    simp only [firstOcc] at h
    split at h
    · rename_i hs
      cases h
      simp only [replace1ne, hs, if_true, List.take_zero, List.nil_append,
        Nat.zero_add]
    · rename_i hs
      simp only [Option.map_eq_some'] at h
      obtain ⟨j, hj, rfl⟩ := h
      have ih := replace1ne_eq old new cs j hne hj
      have hrw : replace1ne old new (c :: cs) = c :: replace1ne old new cs := by
        simp only [replace1ne, if_neg hs]
      have harith : j + 1 + old.length = (j + old.length) + 1 := by omega
      rw [hrw, ih, List.take_succ_cons, harith, List.drop_succ_cons]
      simp

theorem occursIn_append_right :
    ∀ (old x t : List Char), occursIn old t = true → occursIn old (x ++ t) = true
  | old, [], t, h => h
  | old, c :: cs, t, h => by
    simp only [occursIn, List.cons_append, firstOcc]
    split
    · rfl
    · simpa [occursIn] using occursIn_append_right old cs t h

theorem fsFind_update_self :
    ∀ (fs : FS) (k : String) (c v : List Char), fsFind fs k = some c →
      fsFind (fsUpdate fs k v) k = some v
  | [], k, c, v, h => by simp [fsFind] at h
  | (k', c') :: rest, k, c, v, h => by
    by_cases hk : k' = k
    · subst hk; simp [fsFind, fsUpdate]
    · simp only [fsFind, fsUpdate, if_neg hk] at h ⊢
      exact fsFind_update_self rest k c v h

theorem replace1ne_not_found :
    ∀ (old new s : List Char), firstOcc old s = none → replace1ne old new s = s
  | _, _, [], _ => rfl
  | old, new, c :: cs, h => by
    simp only [firstOcc] at h
    split at h
    · cases h
    · rename_i hs
      simp only [Option.map_eq_none'] at h
      simp only [replace1ne, if_neg hs, replace1ne_not_found old new cs h]

theorem str_replace1_not_found {old new s : List Char} (hne : old ≠ [])
    (h : occursIn old s = false) : str_replace1 s old new = s := by
  have hie : old.isEmpty = false := by
    cases old with
    | nil => exact absurd rfl hne
    | cons a as => rfl
  have hnone : firstOcc old s = none := by
    cases hf : firstOcc old s with
    | none => rfl
    | some i => rw [occursIn, hf] at h; cases h
  simp only [str_replace1, hie, Bool.false_eq_true, if_false]
  exact replace1ne_not_found old new s hnone

/-! ## Claim theorems: the Patch Applier. -/

/-- C1: for file content `C` that contains the non-empty `old_str`,
applying the edit replaces exactly the first occurrence (at the minimal
index `i`): the file afterwards holds
`C[0..i) ++ new_str ++ C[i+|old_str|..)`; `C` decomposes at `i` around
`old_str`; no earlier position matches; the result length is
`|C| - |old_str| + |new_str|`; and an occurrence of `old_str` in the
untouched suffix survives (first-occurrence, not global, replace). -/
theorem C1_first_occurrence_replace (fs : FS) (root : String) (e : EditOp)
    (C : List Char) (i : Nat)
    (hC : fsFind fs (os_path_join root e.file) = some C)
    (hne : e.old_str ≠ [])
    (hocc : firstOcc e.old_str C = some i) :
    fsFind (apply_single_edit fs root e).1 (os_path_join root e.file) =
      some (C.take i ++ e.new_str ++ C.drop (i + e.old_str.length)) ∧
    C = C.take i ++ e.old_str ++ C.drop (i + e.old_str.length) ∧
    (∀ j, j < i → startsWith (C.drop j) e.old_str = false) ∧
    (str_replace1 C e.old_str e.new_str).length
      = C.length - e.old_str.length + e.new_str.length ∧
    (occursIn e.old_str (C.drop (i + e.old_str.length)) = true →
      occursIn e.old_str (str_replace1 C e.old_str e.new_str) = true) := by
  have hie : e.old_str.isEmpty = false := by
    cases ho : e.old_str with
    | nil => exact absurd ho hne
    | cons a as => rfl
  have hrepl : str_replace1 C e.old_str e.new_str
      = C.take i ++ e.new_str ++ C.drop (i + e.old_str.length) := by
    simp only [str_replace1, hie, Bool.false_eq_true, if_false]
    exact replace1ne_eq e.old_str e.new_str C i hne hocc
  have hbound := firstOcc_bound hne hocc
  refine ⟨?_, firstOcc_decomp hocc, firstOcc_min e.old_str C i hocc, ?_, ?_⟩
  · simp only [apply_single_edit, apply_single_edit_raw, hC]
    rw [← hrepl]
    exact fsFind_update_self fs _ C _ hC
  · rw [hrepl]
    simp only [List.length_append, List.length_take, List.length_drop]
    omega
  · intro h
    rw [hrepl]
    exact occursIn_append_right _ _ _ h

/-- Witness for C1 at the end-to-end example of §8 of the spec:
`main.txt = "A\nB\n"`, edit `old_str = "B\n"`, `new_str = "B\nC\n"`. -/
theorem C1_first_occurrence_replace_witness :
    fsFind (apply_single_edit [("r/main.txt", ['A', '\n', 'B', '\n'])] "r"
        ⟨"main.txt", ['B', '\n'], ['B', '\n', 'C', '\n']⟩).1
        (os_path_join "r" "main.txt") =
      some (['A', '\n', 'B', '\n'].take 2 ++ ['B', '\n', 'C', '\n']
        ++ ['A', '\n', 'B', '\n'].drop (2 + ['B', '\n'].length)) ∧
    (str_replace1 ['A', '\n', 'B', '\n'] ['B', '\n'] ['B', '\n', 'C', '\n']).length =
      ['A', '\n', 'B', '\n'].length - ['B', '\n'].length
        + ['B', '\n', 'C', '\n'].length := by
  have h := C1_first_occurrence_replace [("r/main.txt", ['A', '\n', 'B', '\n'])] "r"
    ⟨"main.txt", ['B', '\n'], ['B', '\n', 'C', '\n']⟩ ['A', '\n', 'B', '\n'] 2
    (by decide) (by decide) (by decide)
  exact ⟨h.1, h.2.2.2.1⟩

/-- C2 fails on the code: `content.replace("", new_str, 1)` inserts
`new_str` at position 0, so an empty `old_str` **prepends** instead of
appending (`"abc"` becomes `"Xabc"`, not `"abcX"`); and for a missing
target, `open(file_path, 'r')` raises, the bare `except` only logs, and no
file (nor parent directory) is created. -/
theorem C2_counterexample :
    fsFind (apply_single_edit [("r/f.txt", ['a', 'b', 'c'])] "r"
        ⟨"f.txt", [], ['X']⟩).1 "r/f.txt" = some ['X', 'a', 'b', 'c'] ∧
    (['X', 'a', 'b', 'c'] : List Char) ≠ ['a', 'b', 'c'] ++ ['X'] ∧
    apply_single_edit [("r/g.txt", ['q'])] "r" ⟨"missing.txt", [], ['X']⟩ =
      ([("r/g.txt", ['q'])], []) := by decide

/-- C2 amended: for an existing file with content `C` and `old_str = ""`,
apply yields `new_str ++ C` (insertion at position 0, not an append); for a
missing target file, apply is a no-op — the read error is caught and
logged, and no file is created. -/
theorem C2_amended_empty_old_str (fs : FS) (root : String) (e : EditOp)
    (hold : e.old_str = []) :
    (∀ c, fsFind fs (os_path_join root e.file) = some c →
      fsFind (apply_single_edit fs root e).1 (os_path_join root e.file)
        = some (e.new_str ++ c)) ∧
    (fsFind fs (os_path_join root e.file) = none →
      apply_single_edit fs root e = (fs, [])) := by
  constructor
  · intro c hc
    have hr : str_replace1 c e.old_str e.new_str = e.new_str ++ c := by
      simp [str_replace1, hold]
    simp only [apply_single_edit, apply_single_edit_raw, hc]
    rw [← hr]
    exact fsFind_update_self fs _ c _ hc
  · intro hn
    simp [apply_single_edit, apply_single_edit_raw, hn]

/-- Witness for the amended C2. -/
theorem C2_amended_empty_old_str_witness :
    fsFind (apply_single_edit [("r/f.txt", ['a', 'b', 'c'])] "r"
        ⟨"f.txt", [], ['X']⟩).1 (os_path_join "r" "f.txt")
      = some (['X'] ++ ['a', 'b', 'c']) ∧
    apply_single_edit [("r/f.txt", ['a', 'b', 'c'])] "r"
        ⟨"nope.txt", [], ['X']⟩ = ([("r/f.txt", ['a', 'b', 'c'])], []) := by
  refine ⟨(C2_amended_empty_old_str [("r/f.txt", ['a', 'b', 'c'])] "r"
    ⟨"f.txt", [], ['X']⟩ rfl).1 ['a', 'b', 'c'] (by decide), ?_⟩
  exact (C2_amended_empty_old_str [("r/f.txt", ['a', 'b', 'c'])] "r"
    ⟨"nope.txt", [], ['X']⟩ rfl).2 (by decide)

/-- C3 fails on the code: no `PatternNotFoundError` exists anywhere in
`src/`.  When a non-empty `old_str` is absent, `str.replace` returns the
content unchanged, the `try` body completes normally (`Except.ok`, the file
is rewritten with identical bytes), and the plan loop goes on to apply the
next edit — here the second edit is visibly applied afterwards. -/
theorem C3_counterexample :
    (apply_single_edit_raw [("r/a.txt", ['h', 'i'])] "r"
        ⟨"a.txt", ['z'], ['w']⟩).isOk = true ∧
    apply_single_edit [("r/a.txt", ['h', 'i'])] "r" ⟨"a.txt", ['z'], ['w']⟩ =
      ([("r/a.txt", ['h', 'i'])], ["r/a.txt"]) ∧
    fsFind (apply_plan [("r/a.txt", ['h', 'i'])] "r"
        [⟨"a.txt", ['z'], ['w']⟩, ⟨"a.txt", ['h'], ['y']⟩]).1 "r/a.txt" =
      some ['y', 'i'] := by decide

/-- C3 amended: there is no strict not-found policy.  For an edit whose
non-empty `old_str` is absent from the target content, no error is raised
(the `try` body returns normally), the file content is byte-for-byte
unchanged (though rewritten), and the remaining edits of the plan are still
applied to the resulting state. -/
theorem C3_amended_not_found_continues (fs : FS) (root : String) (e : EditOp)
    (rest : List EditOp) (c : List Char)
    (hc : fsFind fs (os_path_join root e.file) = some c)
    (hne : e.old_str ≠ []) (hnocc : occursIn e.old_str c = false) :
    str_replace1 c e.old_str e.new_str = c ∧
    apply_single_edit_raw fs root e =
      Except.ok (fsUpdate fs (os_path_join root e.file) c,
        [os_path_join root e.file]) ∧
    fsFind (apply_single_edit fs root e).1 (os_path_join root e.file) = some c ∧
    (apply_plan fs root (e :: rest)).1
      = (apply_plan (apply_single_edit fs root e).1 root rest).1 := by
  have hr := @str_replace1_not_found e.old_str e.new_str c hne hnocc
  refine ⟨hr, ?_, ?_, rfl⟩
  · simp only [apply_single_edit_raw, hc, hr]
  · simp only [apply_single_edit, apply_single_edit_raw, hc, hr]
    exact fsFind_update_self fs _ c c hc

/-- Witness for the amended C3. -/
theorem C3_amended_not_found_continues_witness :
    str_replace1 ['h', 'i'] ['z'] ['w'] = ['h', 'i'] ∧
    fsFind (apply_single_edit [("r/a.txt", ['h', 'i'])] "r"
        ⟨"a.txt", ['z'], ['w']⟩).1 (os_path_join "r" "a.txt") = some ['h', 'i'] ∧
    (apply_plan [("r/a.txt", ['h', 'i'])] "r"
        [⟨"a.txt", ['z'], ['w']⟩, ⟨"a.txt", ['h'], ['y']⟩]).1
      = (apply_plan (apply_single_edit [("r/a.txt", ['h', 'i'])] "r"
          ⟨"a.txt", ['z'], ['w']⟩).1 "r" [⟨"a.txt", ['h'], ['y']⟩]).1 := by
  have h := C3_amended_not_found_continues [("r/a.txt", ['h', 'i'])] "r"
    ⟨"a.txt", ['z'], ['w']⟩ [⟨"a.txt", ['h'], ['y']⟩] ['h', 'i']
    (by decide) (by decide) (by decide)
  exact ⟨h.1, h.2.2.1, h.2.2.2⟩

/-- C8: `_apply_single_edit` evaluated at a `..`-traversal input.  The code
joins `repo_path` with the edit's path without any validation, so an edit
whose `file` is `"../escape.py"` reads and writes a path whose resolution
lies outside the workspace root — nothing rejects it. -/
theorem C8_path_traversal_unchecked :
    under_root "/tmp/ws" (os_path_join "/tmp/ws" "../escape.py") = false ∧
    (apply_single_edit [("/tmp/ws/../escape.py", ['a', 'x'])] "/tmp/ws"
        ⟨"../escape.py", ['a'], ['b']⟩).2 = ["/tmp/ws/../escape.py"] ∧
    fsFind (apply_single_edit [("/tmp/ws/../escape.py", ['a', 'x'])] "/tmp/ws"
        ⟨"../escape.py", ['a'], ['b']⟩).1 "/tmp/ws/../escape.py"
      = some ['b', 'x'] := by decide

/-- C10 fails on the code: when the non-empty `old_str` is not found the
edit is a content no-op, yet `open(file_path, 'w')` still runs — exactly
one write is performed even though the bytes are unchanged. -/
theorem C10_counterexample :
    (apply_single_edit [("r/b.txt", ['u', 'v'])] "r"
        ⟨"b.txt", ['q'], ['w']⟩).2.length = 1 ∧
    fsFind (apply_single_edit [("r/b.txt", ['u', 'v'])] "r"
        ⟨"b.txt", ['q'], ['w']⟩).1 "r/b.txt" = some ['u', 'v'] := by decide

/-- C10 amended: apply performs exactly one file write (to the joined
target path) whenever the target file can be opened — including the
unmodified-content no-op case — and performs no write at all only when the
open fails (missing file), in which case the file system is untouched. -/
theorem C10_amended_write_counts (fs : FS) (root : String) (e : EditOp) :
    ((fsFind fs (os_path_join root e.file)).isSome →
      (apply_single_edit fs root e).2 = [os_path_join root e.file]) ∧
    (fsFind fs (os_path_join root e.file) = none →
      apply_single_edit fs root e = (fs, [])) := by
  constructor
  · intro hsome
    cases hc : fsFind fs (os_path_join root e.file) with
    | none => rw [hc] at hsome; cases hsome
    | some c => simp [apply_single_edit, apply_single_edit_raw, hc]
  · intro hn
    simp [apply_single_edit, apply_single_edit_raw, hn]

/-- Witness for the amended C10. -/
theorem C10_amended_write_counts_witness :
    (apply_single_edit [("r/b.txt", ['u', 'v'])] "r"
        ⟨"b.txt", ['q'], ['w']⟩).2 = [os_path_join "r" "b.txt"] ∧
    apply_single_edit [("r/b.txt", ['u', 'v'])] "r" ⟨"c.txt", ['q'], ['w']⟩
      = ([("r/b.txt", ['u', 'v'])], []) := by
  refine ⟨(C10_amended_write_counts [("r/b.txt", ['u', 'v'])] "r"
    ⟨"b.txt", ['q'], ['w']⟩).1 (by decide), ?_⟩
  exact (C10_amended_write_counts [("r/b.txt", ['u', 'v'])] "r"
    ⟨"c.txt", ['q'], ['w']⟩).2 (by decide)

/-! ## Lemmas and claim theorems: the Validator. -/

theorem validate_step_invariant (acc : ValidationResults) (f : PyFileCheck)
    (h : acc.success = true ↔
      acc.syntax_errors = [] ∧ acc.compilation_errors = []) :
    (validate_step acc f).success = true ↔
      (validate_step acc f).syntax_errors = [] ∧
      (validate_step acc f).compilation_errors = [] := by
  unfold validate_step
  split
  · simp
  · split
    · split
      · simp
      · exact h
    · simp
    · simp

theorem validate_foldl_invariant :
    ∀ (files : List PyFileCheck) (acc : ValidationResults),
      (acc.success = true ↔
        acc.syntax_errors = [] ∧ acc.compilation_errors = []) →
      ((files.foldl validate_step acc).success = true ↔
        (files.foldl validate_step acc).syntax_errors = [] ∧
        (files.foldl validate_step acc).compilation_errors = [])
  | [], _, h => h
  | f :: fs, acc, h =>
      validate_foldl_invariant fs (validate_step acc f)
        (validate_step_invariant acc f h)

theorem validate_step_mono (acc : ValidationResults) (f : PyFileCheck)
    (x : String × String) (hx : x ∈ acc.compilation_errors) :
    x ∈ (validate_step acc f).compilation_errors := by
  unfold validate_step
  split
  · exact hx
  · split
    · split
      · exact List.mem_append_left _ hx
      · exact hx
    · exact List.mem_append_left _ hx
    · exact List.mem_append_left _ hx

theorem validate_foldl_mono :
    ∀ (files : List PyFileCheck) (acc : ValidationResults) (x : String × String),
      x ∈ acc.compilation_errors →
      x ∈ (files.foldl validate_step acc).compilation_errors
  | [], _, _, hx => hx
  | f :: fs, acc, x, hx =>
      validate_foldl_mono fs (validate_step acc f) x (validate_step_mono acc f x hx)

theorem validate_step_timeout (acc : ValidationResults) (f : PyFileCheck)
    (hs : f.syntaxOk = true) (ht : f.compileRes = CompileOutcome.timedOut) :
    (f.relPath, "Compilation timeout (10s exceeded)")
      ∈ (validate_step acc f).compilation_errors := by
  unfold validate_step
  rw [hs, ht]
  simp

theorem validate_foldl_timeout :
    ∀ (files : List PyFileCheck) (acc : ValidationResults) (f : PyFileCheck),
      f ∈ files → f.syntaxOk = true → f.compileRes = CompileOutcome.timedOut →
      (f.relPath, "Compilation timeout (10s exceeded)")
        ∈ (files.foldl validate_step acc).compilation_errors
  | [], _, _, hmem, _, _ => absurd hmem (List.not_mem_nil _)
  | g :: gs, acc, f, hmem, hs, ht => by
    rcases List.mem_cons.mp hmem with rfl | h2
    · exact validate_foldl_mono gs _ _ (validate_step_timeout acc f hs ht)
    · exact validate_foldl_timeout gs _ f h2 hs ht

/-- C5: over every candidate `.py` file of the workspace (the walk covers
the whole tree, not only the files touched by the current plan), the
validation result's `success` is `true` iff both the syntax-error list and
the compilation-error list are empty; and a per-file compiler timeout is
recorded as a compilation error for that file rather than dropped. -/
theorem C5_validation_success_iff (files : List PyFileCheck) :
    ((run_code_validation files).success = true ↔
      (run_code_validation files).syntax_errors = [] ∧
      (run_code_validation files).compilation_errors = []) ∧
    ∀ f ∈ files, f.syntaxOk = true → f.compileRes = CompileOutcome.timedOut →
      (f.relPath, "Compilation timeout (10s exceeded)")
        ∈ (run_code_validation files).compilation_errors := by
  constructor
  · exact validate_foldl_invariant files _ (by simp)
  · intro f hf hs ht
    exact validate_foldl_timeout files _ f hf hs ht

/-- Witness for C5 at a two-file workspace with one compiler timeout. -/
theorem C5_validation_success_iff_witness :
    ("slow.py", "Compilation timeout (10s exceeded)")
      ∈ (run_code_validation
          [⟨"ok.py", true, CompileOutcome.exited 0 ""⟩,
           ⟨"slow.py", true, CompileOutcome.timedOut⟩]).compilation_errors ∧
    (run_code_validation
        [⟨"ok.py", true, CompileOutcome.exited 0 ""⟩,
         ⟨"slow.py", true, CompileOutcome.timedOut⟩]).success = false := by
  refine ⟨(C5_validation_success_iff
    [⟨"ok.py", true, CompileOutcome.exited 0 ""⟩,
     ⟨"slow.py", true, CompileOutcome.timedOut⟩]).2
      ⟨"slow.py", true, CompileOutcome.timedOut⟩ (by decide) rfl rfl, by decide⟩

/-! ## Claim theorem: the Retry Coordinator. -/

/-- C6: with a validator that fails on every attempt, the coordinator run
terminates as `Failed` after exactly `max_attempts = 3` `Validating`
transitions and exactly 3 planning calls (the initial plan plus two
corrective plans) — there is no fourth planning call, because the entry
guard of `_cycle_errors_with_claude` raises for every attempt number above
`max_attempts` before a corrective plan is requested. -/
theorem C6_retry_exhaustion (validator : Nat → Bool)
    (hv : ∀ n, validator n = false) :
    rc_run validator = ⟨RCStatus.failed, max_attempts, max_attempts⟩ ∧
    ∀ a, a > max_attempts →
      cycle_errors_guard a = Except.error "Maximum error cycling attempts reached" := by
  constructor
  · simp [rc_run, rc_loop, hv 1, hv 2, hv 3, cycle_errors_guard, max_attempts]
  · intro a ha
    have h3 : a > 3 := by simpa [max_attempts] using ha
    simp [cycle_errors_guard, h3]

/-- Witness for C6 with the constantly-failing validator. -/
theorem C6_retry_exhaustion_witness :
    rc_run (fun _ => false) = ⟨RCStatus.failed, max_attempts, max_attempts⟩ ∧
    cycle_errors_guard 4 = Except.error "Maximum error cycling attempts reached" := by
  have h := C6_retry_exhaustion (fun _ => false) (fun _ => rfl)
  exact ⟨h.1, h.2 4 (by decide)⟩

/-! ## Lemmas about the event stream. -/

@[simp] theorem isTerminal_aiMessage (m : String) :
    isTerminal (Event.aiMessage m) = false := rfl

@[simp] theorem isTerminal_heartbeat (m : String) :
    isTerminal (Event.heartbeat m) = false := rfl

@[simp] theorem isErrorEvent_aiMessage (m : String) :
    isErrorEvent (Event.aiMessage m) = false := rfl

@[simp] theorem isErrorEvent_complete (m : String) (u : Option String) :
    isErrorEvent (Event.complete m u) = false := rfl

theorem all_hb_chunk (p : Event → Bool) (hh : ∀ m, p (Event.heartbeat m) = true)
    (env : AgentEnv) (i : Nat) : (hb_chunk env i).all p = true := by
  unfold hb_chunk
  split
  · simp [hh]
  · rfl

theorem all_walk_read (p : Event → Bool) (hr : ∀ f, p (Event.toolRead f) = true)
    (hh : ∀ m, p (Event.heartbeat m) = true) (env : AgentEnv) :
    ∀ (fs : List String) (i : Nat), (walk_read_events env fs i).all p = true
  | [], _ => rfl
  | f :: fs, i => by
    simp [walk_read_events, hr, all_hb_chunk p hh env i,
      all_walk_read p hr hh env fs (i + 1)]

theorem all_map_read (p : Event → Bool) (hr : ∀ f, p (Event.toolRead f) = true) :
    ∀ fs : List String, (fs.map Event.toolRead).all p = true
  | [] => rfl
  | f :: fs => by simp [hr, all_map_read p hr fs]

theorem all_edit_events (p : Event → Bool)
    (he : ∀ f o n, p (Event.toolEdit f o n) = true) :
    ∀ edits : List EditOp, (edit_events edits).all p = true
  | [] => rfl
  | e :: es => by
    have ih := all_edit_events p he es
    simp only [edit_events, List.map_cons, List.all_cons, he, Bool.true_and]
    simpa [edit_events] using ih

theorem all_git_events (p : Event → Bool)
    (hbash : ∀ c o, p (Event.toolBash c o) = true)
    (hh : ∀ m, p (Event.heartbeat m) = true)
    (env : AgentEnv) (b c : String) (i : Nat) :
    (git_events env b c i).events.all p = true := by
  have hhb := all_hb_chunk p hh env
  cases h1 : env.checkoutErr with
  | some m => simp [git_events, h1]
  | none =>
    cases h2 : env.addErr with
    | some m => simp [git_events, h1, h2, hbash, hhb]
    | none =>
      cases h3 : env.commitErr with
      | some m => simp [git_events, h1, h2, h3, hbash, hhb]
      | none =>
        cases h4 : env.pushErr <;>
          simp [git_events, h1, h2, h3, h4, hbash, hhb]

theorem git_events_ok_raised (env : AgentEnv) (b c : String) (i : Nat)
    (hco : env.checkoutErr = none) (ha : env.addErr = none)
    (hcm : env.commitErr = none) :
    (git_events env b c i).raised = none := by
  cases h4 : env.pushErr <;> simp [git_events, hco, ha, hcm, h4]

theorem all_apply_loop_events (p : Event → Bool)
    (hai : ∀ m, p (Event.aiMessage m) = true)
    (he : ∀ f o n, p (Event.toolEdit f o n) = true)
    (hh : ∀ m, p (Event.heartbeat m) = true)
    (env : AgentEnv) (pre : List Event) (edits : List EditOp) (i : Nat)
    (hpre : pre.all p = true) :
    (apply_loop_events env pre edits i).all p = true := by
  simp [apply_loop_events, List.all_append, hpre, hai,
    all_edit_events p he edits, all_hb_chunk p hh env]

theorem all_analysis_events (p : Event → Bool)
    (hai : ∀ m, p (Event.aiMessage m) = true)
    (hr : ∀ f, p (Event.toolRead f) = true)
    (hh : ∀ m, p (Event.heartbeat m) = true)
    (repo_url : String) (env : AgentEnv) :
    (analysis_events repo_url env).all p = true := by
  simp [analysis_events, List.all_append, hai, hh,
    all_hb_chunk p hh env, all_walk_read p hr hh env,
    all_map_read p hr]

theorem clean_of_append_terminal {A : List Event} {t : Event}
    (h : A.all (fun e => !(isTerminal e)) = true) :
    clean_terminals (A ++ [t]) = true := by
  unfold clean_terminals
  rw [List.dropLast_concat]
  exact h

theorem clean_of_all {A : List Event}
    (h : A.all (fun e => !(isTerminal e)) = true) :
    clean_terminals A = true := by
  unfold clean_terminals
  refine List.all_eq_true.mpr fun e he => ?_
  exact List.all_eq_true.mp h e (List.mem_of_mem_dropLast he)

/-- Any `after_plan` tail keeps every event before the last one
non-terminal. -/
theorem clean_after_plan (prompt : String) (env : AgentEnv) (pre : List Event)
    (edits : List EditOp) (i : Nat)
    (hpre : pre.all (fun e => !(isTerminal e)) = true) :
    clean_terminals (after_plan prompt env pre edits i) = true := by
  have happ := all_apply_loop_events (fun e => !(isTerminal e))
    (fun _ => rfl) (fun _ _ _ => rfl) (fun _ => rfl) env pre edits i hpre
  have hgit := all_git_events (fun e => !(isTerminal e))
    (fun _ _ => rfl) (fun _ => rfl) env (branch_name env) (commit_message prompt) (i + 1)
  have hhb := all_hb_chunk (fun e => !(isTerminal e)) (fun _ => rfl) env
  simp only [after_plan]
  cases hgr : (git_events env (branch_name env) (commit_message prompt) (i + 1)).raised with
  | some m =>
    simp only [hgr]
    apply clean_of_append_terminal
    simp only [List.all_append, happ, hgit, Bool.and_true, Bool.true_and]
  | none =>
    simp only [hgr]
    cases hpr : env.prResult with
    | ok url =>
      simp only [hpr]
      apply clean_of_append_terminal
      simp only [List.all_append, List.all_cons, List.all_nil, happ, hgit, hhb,
        isTerminal_aiMessage, Bool.not_false, Bool.and_true, Bool.true_and]
    | error m =>
      simp only [hpr]
      apply clean_of_append_terminal
      simp only [List.all_append, List.all_cons, List.all_nil, happ, hgit, hhb,
        isTerminal_aiMessage, Bool.not_false, Bool.and_true, Bool.true_and]

/-! ## Claim theorems: the event stream. -/

/-- C4 fails on the code: on the path where the planner returns no edits
and no fallback edits can be created, `process_repository` emits the
`Unable to create fallback changes` narration and `return`s — the
completed run contains zero terminal events, not exactly one. -/
theorem C4_counterexample :
    terminal_count (process_repository "https://github.com/o/r" "p"
      { hb := fun _ => false, githubToken := "tok", anthropicKey := "key",
        cloneErr := none, pyFiles := [], claudeEdits := [], fallbackEdits := [],
        timestamp := 0, checkoutErr := none, addErr := none, commitErr := none,
        pushErr := none, logOneline := "", prResult := Except.ok "u" }) = 0 := by
  decide

/-- C4 amended: every completed run emits **at most** one terminal event,
and no event of any type is emitted after a terminal event; on the path
where the planner returns no edits and no fallback edits can be created the
stream ends with a plain `AI Message` and no terminal event at all. -/
theorem C4_amended_terminal_at_most_one (repo_url prompt : String) (env : AgentEnv) :
    clean_terminals (process_repository repo_url prompt env) = true := by
  have hana := all_analysis_events (fun e => !(isTerminal e))
    (fun _ => rfl) (fun _ => rfl) (fun _ => rfl) repo_url env
  have hhb := all_hb_chunk (fun e => !(isTerminal e)) (fun _ => rfl) env
  simp only [process_repository]
  cases hc : env.cloneErr with
  | some m =>
    apply clean_of_append_terminal
    simp only [List.all_append, List.all_cons, List.all_nil, hhb,
      isTerminal_aiMessage, Bool.not_false, Bool.and_true, Bool.true_and]
  | none =>
    cases hce : env.claudeEdits with
    | cons e es => exact clean_after_plan prompt env _ (e :: es) _ hana
    | nil =>
      cases hfe : env.fallbackEdits with
      | nil =>
        apply clean_of_all
        simp only [List.all_append, List.all_cons, List.all_nil, hana,
          isTerminal_aiMessage, Bool.not_false, Bool.and_true, Bool.true_and]
      | cons f fs =>
        apply clean_after_plan
        simp only [List.all_append, List.all_cons, List.all_nil, hana,
          isTerminal_aiMessage, Bool.not_false, Bool.and_true, Bool.true_and]

/-- C7: the `/code` handler substitutes the hardcoded repository URL, so
two requests that agree on `prompt` produce identical event streams in
every environment — the request's `repoUrl` has no influence — and any
request behaves exactly as the same request targeted at the hardcoded
repository. -/
theorem C7_repo_url_ignored (r1 r2 : CodeRequest) (env : AgentEnv)
    (h : r1.prompt = r2.prompt) :
    create_code_changes r1 env = create_code_changes r2 env ∧
    create_code_changes r1 env =
      create_code_changes { repoUrl := hardcoded_repo_url, prompt := r1.prompt } env := by
  constructor
  · simp [create_code_changes, h]
  · simp [create_code_changes]

/-- Witness for C7: two requests naming different repositories, same
prompt. -/
theorem C7_repo_url_ignored_witness :
    create_code_changes ⟨"https://github.com/alice/app", "add tests"⟩
      { hb := fun _ => false, githubToken := "tok", anthropicKey := "key",
        cloneErr := none, pyFiles := ["app.py"],
        claudeEdits := [⟨"app.py", ['a'], ['b']⟩], fallbackEdits := [],
        timestamp := 5, checkoutErr := none, addErr := none, commitErr := none,
        pushErr := none, logOneline := "abc123 automated",
        prResult := Except.ok "https://github.com/arjun-ds/tiny-backspace/pull/1" } =
    create_code_changes ⟨"https://github.com/mallory/other", "add tests"⟩
      { hb := fun _ => false, githubToken := "tok", anthropicKey := "key",
        cloneErr := none, pyFiles := ["app.py"],
        claudeEdits := [⟨"app.py", ['a'], ['b']⟩], fallbackEdits := [],
        timestamp := 5, checkoutErr := none, addErr := none, commitErr := none,
        pushErr := none, logOneline := "abc123 automated",
        prResult := Except.ok "https://github.com/arjun-ds/tiny-backspace/pull/1" } :=
  (C7_repo_url_ignored ⟨"https://github.com/alice/app", "add tests"⟩
    ⟨"https://github.com/mallory/other", "add tests"⟩ _ rfl).1

/-- After a successful git phase, a failed pull-request creation still ends
the `after_plan` tail with a `complete` event whose `pr_url` is `None`, and
no `error` event appears anywhere in it. -/
theorem after_plan_pr_failure (prompt : String) (env : AgentEnv) (pre : List Event)
    (edits : List EditOp) (i : Nat)
    (hco : env.checkoutErr = none) (ha : env.addErr = none)
    (hcm : env.commitErr = none) (m : String)
    (hpr : env.prResult = Except.error m)
    (hpre : pre.all (fun e => !(isErrorEvent e)) = true) :
    (after_plan prompt env pre edits i).getLast? =
      some (Event.complete
        ("Changes completed successfully - pushed to branch " ++ branch_name env) none) ∧
    (after_plan prompt env pre edits i).all (fun e => !(isErrorEvent e)) = true := by
  have hgr := git_events_ok_raised env (branch_name env) (commit_message prompt)
    (i + 1) hco ha hcm
  have happ := all_apply_loop_events (fun e => !(isErrorEvent e))
    (fun _ => rfl) (fun _ _ _ => rfl) (fun _ => rfl) env pre edits i hpre
  have hgit := all_git_events (fun e => !(isErrorEvent e))
    (fun _ _ => rfl) (fun _ => rfl) env (branch_name env) (commit_message prompt) (i + 1)
  have hhb := all_hb_chunk (fun e => !(isErrorEvent e)) (fun _ => rfl) env
  simp only [after_plan, hgr, hpr]
  constructor
  · rw [List.getLast?_concat]
  · simp only [List.all_append, List.all_cons, List.all_nil, happ, hgit, hhb,
      isErrorEvent_aiMessage, isErrorEvent_complete, Bool.not_false,
      Bool.and_true, Bool.true_and]

/-- C9: whenever the patch phase ran (a non-empty plan was applied), the
clone and the git steps succeeded and the push went through, a failure of
pull-request creation still terminates the stream with a `complete` event
carrying `pr_url = None`, and no `error` event is ever emitted — the
publishing failure is reported as success without a PR URL. -/
theorem C9_pr_failure_completes (repo_url prompt : String) (env : AgentEnv)
    (hclone : env.cloneErr = none)
    (hedits : env.claudeEdits ≠ [] ∨ env.fallbackEdits ≠ [])
    (hco : env.checkoutErr = none) (ha : env.addErr = none)
    (hcm : env.commitErr = none) (_hp : env.pushErr = none)
    (m : String) (hpr : env.prResult = Except.error m) :
    (process_repository repo_url prompt env).getLast? =
      some (Event.complete
        ("Changes completed successfully - pushed to branch " ++ branch_name env) none) ∧
    (process_repository repo_url prompt env).all (fun e => !(isErrorEvent e)) = true := by
  have hana := all_analysis_events (fun e => !(isErrorEvent e))
    (fun _ => rfl) (fun _ => rfl) (fun _ => rfl) repo_url env
  simp only [process_repository, hclone]
  cases hce : env.claudeEdits with
  | cons e es =>
    exact after_plan_pr_failure prompt env _ (e :: es) _ hco ha hcm m hpr hana
  | nil =>
    cases hfe : env.fallbackEdits with
    | nil =>
      rcases hedits with h | h
      · exact absurd hce h
      · exact absurd hfe h
    | cons f fs =>
      refine after_plan_pr_failure prompt env _ (f :: fs) _ hco ha hcm m hpr ?_
      simp only [List.all_append, List.all_cons, List.all_nil, hana,
        isErrorEvent_aiMessage, Bool.not_false, Bool.and_true, Bool.true_and]

/-- Witness for C9: a concrete run whose PR creation fails after a clean
git phase. -/
theorem C9_pr_failure_completes_witness :
    (process_repository "https://github.com/o/r" "p"
      { hb := fun _ => false, githubToken := "tok", anthropicKey := "key",
        cloneErr := none, pyFiles := ["app.py"],
        claudeEdits := [⟨"app.py", ['a'], ['b']⟩], fallbackEdits := [],
        timestamp := 7, checkoutErr := none, addErr := none, commitErr := none,
        pushErr := none, logOneline := "abc123 automated",
        prResult := Except.error "rate limited" }).getLast? =
      some (Event.complete
        ("Changes completed successfully - pushed to branch "
          ++ branch_name
            { hb := fun _ => false, githubToken := "tok", anthropicKey := "key",
              cloneErr := none, pyFiles := ["app.py"],
              claudeEdits := [⟨"app.py", ['a'], ['b']⟩], fallbackEdits := [],
              timestamp := 7, checkoutErr := none, addErr := none, commitErr := none,
              pushErr := none, logOneline := "abc123 automated",
              prResult := Except.error "rate limited" }) none) ∧
    (process_repository "https://github.com/o/r" "p"
      { hb := fun _ => false, githubToken := "tok", anthropicKey := "key",
        cloneErr := none, pyFiles := ["app.py"],
        claudeEdits := [⟨"app.py", ['a'], ['b']⟩], fallbackEdits := [],
        timestamp := 7, checkoutErr := none, addErr := none, commitErr := none,
        pushErr := none, logOneline := "abc123 automated",
        prResult := Except.error "rate limited" }).all
        (fun e => !(isErrorEvent e)) = true :=
  C9_pr_failure_completes "https://github.com/o/r" "p" _ rfl
    (Or.inl (by simp)) rfl rfl rfl rfl "rate limited" rfl

end TB
